import Mathlib

/-!
Shallow embedding of `daily_arxiv/daily_arxiv/spiders/arxiv.py` (ArxivSpider).

The spider's two callbacks `parse` (listing page, stage 1) and
`parse_abstract_page` (abstract page, stage 2) are modelled as pure
functions over an input record holding the results of the CSS/XPath
extractions that the code performs on the HTML response.  Python string
operations (`in`, `lower`, `strip`, `replace`, `split`, `int`, slicing,
`list(set(...))`, `re.findall(r'\(([^)]+)\)', ...)`) are modelled by
executable structural functions on `List Char` defined below.  A `none`
result of the listing parser models a raised exception (`int()` on a
non-numeric anchor suffix); every other path of the source is total.
-/

namespace ArxivSpider

/-! ### Python string primitives -/

/-- Python whitespace for `str.strip()` (ASCII subset: space, tab, LF, CR, VT, FF). -/
def pySpaceChar (c : Char) : Bool :=
  c == ' ' || c == '\t' || c == '\n' || c == '\r' || c == '\x0b' || c == '\x0c'

/-- `strStartsWith pat l` is true when `pat` is a prefix of `l`. -/
def strStartsWith : List Char → List Char → Bool
  | [], _ => true
  | _ :: _, [] => false
  | p :: ps, c :: cs => p == c && strStartsWith ps cs

/-- Substring occurrence on character lists: Python's `needle in haystack`. -/
def containsSub (needle : List Char) : List Char → Bool
  | [] => needle.isEmpty
  | c :: rest => strStartsWith needle (c :: rest) || containsSub needle rest

/-- Python `needle in haystack` on strings. -/
def pyIn (needle haystack : String) : Bool :=
  containsSub needle.data haystack.data

/-- Python `str.lower()` (ASCII; every string the spider lowercases is ASCII). -/
def pyLower (s : String) : String :=
  String.mk (s.data.map Char.toLower)

/-- Python `str.strip()`. -/
def pyStrip (s : String) : String :=
  String.mk (((s.data.dropWhile pySpaceChar).reverse.dropWhile pySpaceChar).reverse)

/-- Fuel-indexed remover of every non-overlapping occurrence of `pat`,
scanning left to right; the fuel is instantiated with the list length,
which bounds the number of steps. -/
def removeAllAux (pat : List Char) : Nat → List Char → List Char
  | 0, l => l
  | _ + 1, [] => []
  | fuel + 1, c :: rest =>
    if strStartsWith pat (c :: rest) = true ∧ pat ≠ [] then
      removeAllAux pat fuel ((c :: rest).drop pat.length)
    else
      c :: removeAllAux pat fuel rest

/-- Python `s.replace(pat, "")` (both call sites of the spider replace with `""`). -/
def pyRemoveAll (pat s : String) : String :=
  String.mk (removeAllAux pat.data s.data.length s.data)

/-- Fuel-indexed splitter on a (nonempty) separator; `acc` holds the
current field reversed. -/
def splitAux (sep : List Char) : Nat → List Char → List Char → List (List Char)
  | 0, acc, l => [acc.reverse ++ l]
  | _ + 1, acc, [] => [acc.reverse]
  | fuel + 1, acc, c :: rest =>
    if strStartsWith sep (c :: rest) = true then
      acc.reverse :: splitAux sep fuel [] ((c :: rest).drop sep.length)
    else
      splitAux sep fuel (c :: acc) rest

/-- Python `s.split(sep)` for a nonempty separator (the spider splits on
`"item"` and `"/"`). -/
def pySplit (sep s : String) : List String :=
  (splitAux sep.data s.data.length [] s.data).map String.mk

/-- Decimal digit run to a number; `none` on a non-digit. -/
def digitsToNatAux : Nat → List Char → Option Nat
  | acc, [] => some acc
  | acc, c :: rest =>
    if c.isDigit then digitsToNatAux (acc * 10 + (c.toNat - 48)) rest else none

/-- Python `int(s)` on the decimal strings arising here (surrounding
whitespace ignored, optional sign, digits); `none` models the raised
`ValueError`. -/
def pyInt? (s : String) : Option Int :=
  match (pyStrip s).data with
  | [] => none
  | '-' :: rest =>
    match rest with
    | [] => none
    | _ => (digitsToNatAux 0 rest).map (fun n => -(n : Int))
  | '+' :: rest =>
    match rest with
    | [] => none
    | _ => (digitsToNatAux 0 rest).map (fun n => (n : Int))
  | l => (digitsToNatAux 0 l).map (fun n => (n : Int))

/-- Python slicing `s[:n]` (by characters). -/
def pySlice (n : Nat) (s : String) : String :=
  String.mk (s.data.take n)

/-- Model of Python `list(set(xs))` for strings: duplicates collapsed
(iteration order of a `set` is unspecified; modelled as first occurrence). -/
def dedupAux (seen : List String) : List String → List String
  | [] => []
  | c :: rest =>
    if c ∈ seen then dedupAux seen rest else c :: dedupAux (c :: seen) rest

def pyListSet (xs : List String) : List String := dedupAux [] xs

/-- Fuel-indexed scanner for `re.findall(r'\(([^)]+)\)', s)`: every
non-overlapping leftmost match of a parenthesis pair captures the
(nonempty, `)`-free) text between the parentheses. -/
def findParenAux : Nat → List Char → List String
  | 0, _ => []
  | _ + 1, [] => []
  | fuel + 1, c :: rest =>
    if c = '(' then
      match rest.dropWhile (fun d => d != ')') with
      | ')' :: rest2 =>
        if rest.takeWhile (fun d => d != ')') = [] then
          findParenAux fuel rest
        else
          String.mk (rest.takeWhile (fun d => d != ')')) :: findParenAux fuel rest2
      | _ => findParenAux fuel rest
    else
      findParenAux fuel rest

/-- `re.findall(r'\(([^)]+)\)', s)`. -/
def reFindAllParen (s : String) : List String :=
  findParenAux s.data.length s.data

/-- Python truthiness of an optional string (`None` and `""` are falsy). -/
def truthyOpt : Option String → Bool
  | none => false
  | some s => s != ""

end ArxivSpider

namespace ArxivSpider

/-! ### Data model

A `ListingEntry` records the extraction results for one `<dl><dt>` unit of
the listing page (`parse`, lines 45–100 of the source); `ListingPage` adds
the navigation-block anchor hrefs (`div[id=dlpage] ul li a::attr(href)`,
lines 38–42); `AbstractPage` records the abstract-block text of the
abstract page (`blockquote.abstract`, line 136). -/

structure ListingEntry where
  /-- `paper_dt.css("a[name^='item']::attr(name)").get()` -/
  anchorName : Option String
  /-- `paper_dt.css("a[title='Abstract']::attr(href)").get()` -/
  abstractLink : Option String
  /-- whether `paper_dt.xpath("following-sibling::dd[1]")` is nonempty -/
  hasDD : Bool
  /-- `paper_dd.css(".list-subjects .primary-subject::text").get()` -/
  primarySubject : Option String
  /-- `paper_dd.css(".list-subjects::text").get()` (fallback) -/
  listSubjects : Option String
  /-- `paper_dd.css(".list-title").xpath("string()").get()` -/
  titleText : Option String
deriving DecidableEq, Repr

structure ListingPage where
  navHrefs : List (Option String)
  entries : List ListingEntry
deriving DecidableEq, Repr

structure AbstractPage where
  /-- `response.css("blockquote.abstract").xpath("string()").get()` -/
  abstractText : Option String
deriving DecidableEq, Repr

/-- The emitted item `{"id": arxiv_id, "categories": categories}`. -/
structure Item where
  id : String
  categories : List String
deriving DecidableEq, Repr

/-- An output of the listing parser: either a yielded item or a yielded
`scrapy.Request` for the abstract page (url, and the `meta` payload
`item_data` / `title_prefix`). -/
inductive Event where
  | emit (item : Item)
  | request (url : String) (item : Item) (titleSnippet : String)
deriving DecidableEq, Repr

/-- Log emitted by `parse_abstract_page`, one constructor per source log
call. -/
inductive Severity where
  | debug
  | info
  | warning
deriving DecidableEq, Repr

inductive AbsLog where
  /-- `logger.info("Found INTERESTING paper (by Abstract) ...")` -/
  | foundByAbstract (id : String) (titleSnippet : String)
  /-- `logger.info("Skipped paper ...: Keywords not found in Title or Abstract")` -/
  | skippedNoKeywords (id : String)
  /-- `logger.warning("Could not extract abstract for ...")` -/
  | noAbstract (id : String)
deriving DecidableEq, Repr

def AbsLog.severity : AbsLog → Severity
  | .foundByAbstract _ _ => .info
  | .skippedNoKeywords _ => .info
  | .noAbstract _ => .warning

/-! ### Configuration (`__init__`) -/

/-- `self.my_keywords` as the host language actually compiles it: the two
missing commas (after `"strong lensing"` on line 20 and after
`"interferometer"` on line 23) make Python concatenate the adjacent string
literals into `"strong lensinglens model"` and `"interferometerDust"`. -/
def my_keywords : List String :=
  [ "strong lens", "strong gravitational lens",
    "strong lensinglens model",
    "lensing",
    "dark matter", "DM halo",
    "ALMA", "SKA",
    "interferometerDust",
    "dusty",
    "DSFGs", "submillimeter",
    "high-redshift", "z >", "z>",
    "polarization", "polarized", "polarised",
    "gas", "molecular", "molecular gas",
    "SPT", "Herschel", "JWST", "Euclid", "CSST" ]

/-- `self.target_categories`: `os.environ.get("CATEGORIES", "astro-ph.GA,
astro-ph.CO")`, split on `","`, each part stripped, collected into a set
(modelled as a duplicate-free list). -/
def initTargetCategories (env : Option String) : List String :=
  pyListSet ((pySplit "," (env.getD "astro-ph.GA, astro-ph.CO")).map pyStrip)

/-! ### Listing parser (`parse`) -/

/-- Lines 38–42: collect the integer suffix after `"item"` of every
navigation anchor href that is truthy and contains `"item"`.  `none`
models `int()` raising on a non-numeric suffix. -/
def collectAnchors : List (Option String) → Option (List Int)
  | [] => some []
  | h :: rest =>
    match h with
    | none => collectAnchors rest
    | some href =>
      if href = "" then collectAnchors rest
      else if pyIn "item" href = true then
        match pyInt? ((pySplit "item" href).getLastD "") with
        | none => none
        | some n =>
          match collectAnchors rest with
          | none => none
          | some ns => some (n :: ns)
      else collectAnchors rest

/-- Lines 68–75: `subjects_text`, with the `.primary-subject` →
`.list-subjects` fallback taken when the first extraction is falsy. -/
def subjectsTextOf (e : ListingEntry) : Option String :=
  match e.primarySubject with
  | some s => if s = "" then e.listSubjects else some s
  | none => e.listSubjects

/-- Lines 68–75: `categories = list(set(re.findall(r'\(([^)]+)\)',
subjects_text)))` when `subjects_text` is truthy, else `[]`. -/
def categoriesOf (e : ListingEntry) : List String :=
  match subjectsTextOf e with
  | none => []
  | some s => if s = "" then [] else pyListSet (reFindAllParen s)

/-- Truthiness of `paper_categories_set.intersection(self.target_categories)`. -/
def setIntersects (xs ys : List String) : Bool :=
  xs.any (fun c => decide (c ∈ ys))

/-- Lines 97–100: `clean_title`, `""` when the extracted title is falsy,
else `title_text.replace("Title:", "").strip().lower()`. -/
def cleanTitleOf (t : Option String) : String :=
  match t with
  | none => ""
  | some s => if s = "" then "" else pyLower (pyStrip (pyRemoveAll "Title:" s))

/-- Lines 103–107: the title keyword loop — `for kw in self.my_keywords:
if kw.lower() in clean_title: ... break`. -/
def titleMatchLoop (kws : List String) (clean_title : String) : Bool :=
  match kws with
  | [] => false
  | kw :: rest =>
    if pyIn (pyLower kw) clean_title = true then true
    else titleMatchLoop rest clean_title

/-- Lines 45–124: processing of one `dt` entry.  The result is the list of
outputs yielded for this entry (`[]` for every `continue`), or `none` when
`int(paper_anchor.split("item")[-1])` raises. -/
def processEntry (target kws : List String) (urljoin : String → String)
    (anchors : List Int) (e : ListingEntry) : Option (List Event) :=
  match e.anchorName with
  | none => some []
  | some anchorStr =>
    if anchorStr = "" then some [] else
    match pyInt? ((pySplit "item" anchorStr).getLastD "") with
    | none => none
    | some paper_id =>
      if anchors ≠ [] ∧ anchors.getLastD 0 ≤ paper_id then some [] else
      match e.abstractLink with
      | none => some []
      | some link =>
        if link = "" then some [] else
        let arxiv_id := (pySplit "/" link).getLastD ""
        if e.hasDD = false then some [] else
        let categories := categoriesOf e
        let item : Item := { id := arxiv_id, categories := categories }
        if setIntersects categories target = false ∧ truthyOpt (subjectsTextOf e) = true then
          some []
        else
          let clean_title := cleanTitleOf e.titleText
          if titleMatchLoop kws clean_title = true then
            some [Event.emit item]
          else
            some [Event.request (urljoin link) item (pySlice 30 clean_title)]

/-- The entry loop of `parse` as a generator: outputs already yielded are
kept, a raised exception stops the iteration (second component `false`). -/
def parseEntries (target kws : List String) (urljoin : String → String)
    (anchors : List Int) : List ListingEntry → List Event × Bool
  | [] => ([], true)
  | e :: rest =>
    match processEntry target kws urljoin anchors e with
    | none => ([], false)
    | some evs =>
      match parseEntries target kws urljoin anchors rest with
      | (out, ok) => (evs ++ out, ok)

/-- `parse` (lines 36–124): anchor collection, then the entry loop.  An
exception while collecting anchors happens before any yield. -/
def parse (target kws : List String) (urljoin : String → String)
    (page : ListingPage) : List Event × Bool :=
  match collectAnchors page.navHrefs with
  | none => ([], false)
  | some anchors => parseEntries target kws urljoin anchors page.entries

/-! ### Abstract parser (`parse_abstract_page`) -/

/-- Lines 143–147: the abstract keyword loop, textually duplicated from
the title loop in the source. -/
def abstractMatchLoop (kws : List String) (clean_abstract : String) : Bool :=
  match kws with
  | [] => false
  | kw :: rest =>
    if pyIn (pyLower kw) clean_abstract = true then true
    else abstractMatchLoop rest clean_abstract

/-- `parse_abstract_page` (lines 126–155): outputs yielded (at most the
one item carried in `meta`) paired with the log line the code writes. -/
def parse_abstract_page (kws : List String) (item_data : Item)
    (titleSnippet : String) (page : AbstractPage) : List Event × AbsLog :=
  match page.abstractText with
  | none => ([], AbsLog.noAbstract item_data.id)
  | some s =>
    if s = "" then ([], AbsLog.noAbstract item_data.id)
    else
      let clean_abstract := pyLower (pyStrip (pyRemoveAll "Abstract:" s))
      if abstractMatchLoop kws clean_abstract = true then
        ([Event.emit item_data], AbsLog.foundByAbstract item_data.id titleSnippet)
      else
        ([], AbsLog.skippedNoKeywords item_data.id)

/-- The spider's state read by the callbacks; `parse` assigns no attribute,
which the embedding shows by returning the state unchanged. -/
structure SpiderState where
  target_categories : List String
  my_keywords : List String
deriving DecidableEq, Repr

def parseWithState (st : SpiderState) (urljoin : String → String)
    (page : ListingPage) : (List Event × Bool) × SpiderState :=
  (parse st.target_categories st.my_keywords urljoin page, st)

/-! ### Event counters (for the at-most-once property) -/

def countEmits (evs : List Event) : Nat :=
  evs.countP (fun ev => match ev with | .emit _ => true | .request _ _ _ => false)

def countRequests (evs : List Event) : Nat :=
  evs.countP (fun ev => match ev with | .emit _ => false | .request _ _ _ => true)

end ArxivSpider

namespace ArxivSpider

/-! ### Helper lemmas -/

/-- The title keyword loop returns true exactly when some pattern of the
list, lowercased, occurs in the text. -/
theorem titleMatchLoop_iff (kws : List String) (t : String) :
    titleMatchLoop kws t = true ↔ ∃ kw ∈ kws, pyIn (pyLower kw) t = true := by
  induction kws with
  | nil => simp [titleMatchLoop]
  | cons kw rest ih =>
    by_cases h : pyIn (pyLower kw) t = true
    · simp [titleMatchLoop, h]
    · simp [titleMatchLoop, h, ih]

/-- Same characterization for the abstract keyword loop. -/
theorem abstractMatchLoop_iff (kws : List String) (t : String) :
    abstractMatchLoop kws t = true ↔ ∃ kw ∈ kws, pyIn (pyLower kw) t = true := by
  induction kws with
  | nil => simp [abstractMatchLoop]
  | cons kw rest ih =>
    by_cases h : pyIn (pyLower kw) t = true
    · simp [abstractMatchLoop, h]
    · simp [abstractMatchLoop, h, ih]

end ArxivSpider

namespace ArxivSpider

/-! ### Claim theorems -/

/-- C5: the keyword test applied by stage 1 to the normalized title and
the keyword test applied by stage 2 to the normalized abstract compute
the same predicate: for every pattern list and every input text the two
loops (identical pattern list, identical order, identical case-insensitive
substring test, identical first-hit short-circuit) return equal results. -/
theorem C5_shared_keyword_predicate (kws : List String) (text : String) :
    titleMatchLoop kws text = abstractMatchLoop kws text := by
  induction kws with
  | nil => rfl
  | cons kw rest ih => simp only [titleMatchLoop, abstractMatchLoop, ih]

/-- C2: for an escalated record whose abstract page yields a (truthy)
abstract text, stage 2 emits the carried item exactly when some keyword
pattern, case-insensitively, occurs in the normalized abstract (every
pattern of the list being tested, first hit winning); and stage 2 yields
no further request, so there is no escalation after stage 2. -/
theorem C2_stage2_escalation_decision (kws : List String) (item_data : Item)
    (ts s : String) (hs : s ≠ "") :
    ((parse_abstract_page kws item_data ts ⟨some s⟩).1 =
      if abstractMatchLoop kws (pyLower (pyStrip (pyRemoveAll "Abstract:" s))) = true
      then [Event.emit item_data] else [])
    ∧ (abstractMatchLoop kws (pyLower (pyStrip (pyRemoveAll "Abstract:" s))) = true ↔
        ∃ kw ∈ kws, pyIn (pyLower kw) (pyLower (pyStrip (pyRemoveAll "Abstract:" s))) = true)
    ∧ ∀ ev ∈ (parse_abstract_page kws item_data ts ⟨some s⟩).1,
        ∀ u i t, ev ≠ Event.request u i t := by
  refine ⟨?_, abstractMatchLoop_iff _ _, ?_⟩
  · by_cases hc : abstractMatchLoop kws (pyLower (pyStrip (pyRemoveAll "Abstract:" s))) = true <;>
      simp [parse_abstract_page, hs, hc]
  · by_cases hc : abstractMatchLoop kws (pyLower (pyStrip (pyRemoveAll "Abstract:" s))) = true <;>
      simp [parse_abstract_page, hs, hc]

theorem C2_witness :
    (parse_abstract_page ["molecular gas"] ⟨"2401.00002", ["astro-ph.GA"]⟩ "a survey of gas content"
        ⟨some "Abstract: We study molecular gas content."⟩).1 =
      if abstractMatchLoop ["molecular gas"]
          (pyLower (pyStrip (pyRemoveAll "Abstract:" "Abstract: We study molecular gas content."))) = true
      then [Event.emit ⟨"2401.00002", ["astro-ph.GA"]⟩] else [] :=
  (C2_stage2_escalation_decision ["molecular gas"] ⟨"2401.00002", ["astro-ph.GA"]⟩
    "a survey of gas content" "Abstract: We study molecular gas content." (by decide)).1

/-- C9: when the abstract page yields no (truthy) abstract-block text,
stage 2 emits nothing, returns normally (the embedding is a total
function, no exception path), and writes the `noAbstract` log, whose
severity is `warning` and which differs from the info-level
keyword-mismatch log for every id. -/
theorem C9_missing_abstract (kws : List String) (item_data : Item) (ts : String)
    (page : AbstractPage) (h : truthyOpt page.abstractText = false) :
    parse_abstract_page kws item_data ts page = ([], AbsLog.noAbstract item_data.id)
    ∧ (AbsLog.noAbstract item_data.id).severity = Severity.warning
    ∧ (∀ i, (AbsLog.skippedNoKeywords i).severity = Severity.info)
    ∧ ∀ i, AbsLog.noAbstract item_data.id ≠ AbsLog.skippedNoKeywords i := by
  refine ⟨?_, rfl, fun i => rfl, fun i => by simp⟩
  cases hp : page.abstractText with
  | none => simp [parse_abstract_page, hp]
  | some s =>
    rw [hp] at h
    simp [truthyOpt] at h
    simp [parse_abstract_page, hp, h]

theorem C9_witness :
    parse_abstract_page my_keywords ⟨"2401.00003", []⟩ "t" ⟨none⟩ =
      ([], AbsLog.noAbstract "2401.00003") :=
  (C9_missing_abstract my_keywords ⟨"2401.00003", []⟩ "t" ⟨none⟩ (by decide)).1

/-- C8: the listing parse is a pure function of the spider state (target
categories and keyword list) and the page: it leaves the state unchanged,
and a second invocation on the identical page yields the identical output
sequence. -/
theorem C8_parse_determinism (st : SpiderState) (urljoin : String → String)
    (page : ListingPage) :
    (parseWithState st urljoin page).2 = st
    ∧ (parseWithState st urljoin page).1 =
        (parseWithState (parseWithState st urljoin page).2 urljoin page).1 :=
  ⟨rfl, rfl⟩

end ArxivSpider

namespace ArxivSpider

/-- C1: for an entry that reaches the title test (well-formed anchor,
inside the anchor bound, abstract link present, detail block present,
category gate passed), the record is emitted exactly when the title
keyword loop hits — equivalently, when some pattern of the list,
case-insensitively, occurs in the normalized title — and on a hit the
yield is the item alone (no abstract request), while on a miss the yield
is the abstract request alone (no emission, no drop). -/
theorem C1_stage1_title_decision
    (target kws : List String) (urljoin : String → String) (anchors : List Int)
    (e : ListingEntry) (a l : String) (pid : Int)
    (ha : e.anchorName = some a) (ha' : a ≠ "")
    (hpid : pyInt? ((pySplit "item" a).getLastD "") = some pid)
    (hbound : anchors = [] ∨ pid < anchors.getLastD 0)
    (hl : e.abstractLink = some l) (hl' : l ≠ "")
    (hdd : e.hasDD = true)
    (hgate : ¬ (setIntersects (categoriesOf e) target = false
                ∧ truthyOpt (subjectsTextOf e) = true)) :
    processEntry target kws urljoin anchors e =
      some (if titleMatchLoop kws (cleanTitleOf e.titleText) = true
            then [Event.emit ⟨(pySplit "/" l).getLastD "", categoriesOf e⟩]
            else [Event.request (urljoin l) ⟨(pySplit "/" l).getLastD "", categoriesOf e⟩
                    (pySlice 30 (cleanTitleOf e.titleText))])
    ∧ (titleMatchLoop kws (cleanTitleOf e.titleText) = true ↔
        ∃ kw ∈ kws, pyIn (pyLower kw) (cleanTitleOf e.titleText) = true) := by
  refine ⟨?_, titleMatchLoop_iff _ _⟩
  have hb : ¬ (anchors ≠ [] ∧ anchors.getLastD 0 ≤ pid) := by
    rcases hbound with h | h
    · exact fun hc => hc.1 h
    · exact fun hc => absurd h (not_lt.mpr hc.2)
  unfold processEntry
  rw [ha, hl]
  simp only [hpid, if_neg ha', if_neg hb, if_neg hl', hdd, if_neg hgate]
  by_cases hm : titleMatchLoop kws (cleanTitleOf e.titleText) = true <;> simp [hm]

end ArxivSpider

namespace ArxivSpider

/-- Concrete listing entry whose title hits a keyword (scenario A of the
spec: index 5, bound 10, category `astro-ph.GA`, title "A Strong Lensing
Survey"). -/
def entryA : ListingEntry :=
  { anchorName := some "item5"
    abstractLink := some "/abs/2401.00010"
    hasDD := true
    primarySubject := some "Astrophysics of Galaxies (astro-ph.GA)"
    listSubjects := none
    titleText := some "Title: A Strong Lensing Survey" }

theorem C1_witness :
    processEntry ["astro-ph.GA"] my_keywords (fun u => u) [10] entryA =
      some (if titleMatchLoop my_keywords (cleanTitleOf entryA.titleText) = true
            then [Event.emit ⟨(pySplit "/" "/abs/2401.00010").getLastD "", categoriesOf entryA⟩]
            else [Event.request ((fun u => u) "/abs/2401.00010")
                    ⟨(pySplit "/" "/abs/2401.00010").getLastD "", categoriesOf entryA⟩
                    (pySlice 30 (cleanTitleOf entryA.titleText))]) :=
  (C1_stage1_title_decision ["astro-ph.GA"] my_keywords (fun u => u) [10] entryA
    "item5" "/abs/2401.00010" 5 rfl (by decide) (by decide) (by decide)
    rfl (by decide) rfl (by decide)).1

/-- C3: for an entry that reaches the category gate (well-formed anchor,
inside the bound, abstract link present, detail block present): when the
subjects field is present (truthy) and the parsed category set does not
intersect the target set, the entry is skipped — for every keyword list
the output is empty, so no keyword is evaluated and no abstract request
is issued; when the subjects field is absent (falsy), the gate passes the
entry through unconditionally to the title keyword test. -/
theorem C3_category_gate
    (target : List String) (urljoin : String → String) (anchors : List Int)
    (e : ListingEntry) (a l : String) (pid : Int)
    (ha : e.anchorName = some a) (ha' : a ≠ "")
    (hpid : pyInt? ((pySplit "item" a).getLastD "") = some pid)
    (hbound : anchors = [] ∨ pid < anchors.getLastD 0)
    (hl : e.abstractLink = some l) (hl' : l ≠ "")
    (hdd : e.hasDD = true) :
    (truthyOpt (subjectsTextOf e) = true →
      setIntersects (categoriesOf e) target = false →
      ∀ kws, processEntry target kws urljoin anchors e = some [])
    ∧ (truthyOpt (subjectsTextOf e) = false →
      ∀ kws, processEntry target kws urljoin anchors e =
        some (if titleMatchLoop kws (cleanTitleOf e.titleText) = true
              then [Event.emit ⟨(pySplit "/" l).getLastD "", categoriesOf e⟩]
              else [Event.request (urljoin l) ⟨(pySplit "/" l).getLastD "", categoriesOf e⟩
                      (pySlice 30 (cleanTitleOf e.titleText))])) := by
  have hb : ¬ (anchors ≠ [] ∧ anchors.getLastD 0 ≤ pid) := by
    rcases hbound with h | h
    · exact fun hc => hc.1 h
    · exact fun hc => absurd h (not_lt.mpr hc.2)
  constructor
  · intro ht hint kws
    have hgate : setIntersects (categoriesOf e) target = false
        ∧ truthyOpt (subjectsTextOf e) = true := ⟨hint, ht⟩
    unfold processEntry
    rw [ha, hl]
    simp only [hpid, if_neg ha', if_neg hb, if_neg hl', hdd, if_pos hgate]
    simp
  · intro ht kws
    have hgate : ¬ (setIntersects (categoriesOf e) target = false
        ∧ truthyOpt (subjectsTextOf e) = true) := by
      rw [ht]
      rintro ⟨-, hh⟩
      cases hh
    unfold processEntry
    rw [ha, hl]
    simp only [hpid, if_neg ha', if_neg hb, if_neg hl', hdd, if_neg hgate]
    by_cases hm : titleMatchLoop kws (cleanTitleOf e.titleText) = true <;> simp [hm]

/-- Concrete listing entry for the gate skip (scenario D of the spec:
categories `(cs.LG)`, target `astro-ph.GA`, keyword-matching title). -/
def entryD : ListingEntry :=
  { anchorName := some "item5"
    abstractLink := some "/abs/2401.00020"
    hasDD := true
    primarySubject := some "Machine Learning (cs.LG)"
    listSubjects := none
    titleText := some "Title: A Strong Lensing Survey" }

theorem C3_witness :
    processEntry ["astro-ph.GA"] my_keywords (fun u => u) [10] entryD = some [] :=
  (C3_category_gate ["astro-ph.GA"] (fun u => u) [10] entryD
    "item5" "/abs/2401.00020" 5 rfl (by decide) (by decide) (by decide)
    rfl (by decide) rfl).1 (by decide) (by decide) my_keywords

end ArxivSpider

namespace ArxivSpider

/-- C4: (i) the listing parser runs the entry loop against exactly the
integer-suffix sequence collected from the navigation anchors, the bound
being its last element (`anchors[-1]`, modelled by `getLastD`); (ii) an
entry whose own position index is ≥ that last element yields nothing
(index equal to the bound excluded); (iii) when no anchors were
collected, no entry is excluded by position: the outcome is unchanged
under replacing the entry's anchor (hence its position index) by any
other well-formed one. -/
theorem C4_boundary_exclusivity :
    (∀ (target kws : List String) (urljoin : String → String)
        (page : ListingPage) (anchors : List Int),
      collectAnchors page.navHrefs = some anchors →
      parse target kws urljoin page = parseEntries target kws urljoin anchors page.entries)
    ∧ (∀ (target kws : List String) (urljoin : String → String)
        (anchors : List Int) (e : ListingEntry) (a : String) (pid : Int),
      e.anchorName = some a → a ≠ "" →
      pyInt? ((pySplit "item" a).getLastD "") = some pid →
      anchors ≠ [] → anchors.getLastD 0 ≤ pid →
      processEntry target kws urljoin anchors e = some [])
    ∧ ∀ (target kws : List String) (urljoin : String → String)
        (e : ListingEntry) (a a' : String) (pid pid' : Int),
      e.anchorName = some a → a ≠ "" →
      pyInt? ((pySplit "item" a).getLastD "") = some pid →
      a' ≠ "" →
      pyInt? ((pySplit "item" a').getLastD "") = some pid' →
      processEntry target kws urljoin [] e =
        processEntry target kws urljoin [] { e with anchorName := some a' } := by
  refine ⟨?_, ?_, ?_⟩
  · intro target kws urljoin page anchors h
    unfold parse
    rw [h]
  · intro target kws urljoin anchors e a pid ha ha' hpid hne hle
    have hcond : anchors ≠ [] ∧ anchors.getLastD 0 ≤ pid := ⟨hne, hle⟩
    unfold processEntry
    rw [ha]
    simp only [hpid, if_neg ha', if_pos hcond]
  · intro target kws urljoin e a a' pid pid' ha ha' hpid ha2 hpid2
    have hb : ¬ (([] : List Int) ≠ [] ∧ ([] : List Int).getLastD 0 ≤ pid) := by
      rintro ⟨hc, -⟩
      exact hc rfl
    have hb' : ¬ (([] : List Int) ≠ [] ∧ ([] : List Int).getLastD 0 ≤ pid') := by
      rintro ⟨hc, -⟩
      exact hc rfl
    obtain ⟨an, al, hd, ps, ls, tt⟩ := e
    simp only [ListingEntry.anchorName] at ha
    subst ha
    unfold processEntry
    simp only [hpid, hpid2, if_neg ha', if_neg ha2, if_neg hb, if_neg hb']
    simp only [categoriesOf, subjectsTextOf]

theorem C4_witness :
    (parse ["astro-ph.GA"] my_keywords (fun u => u) ⟨[some "/list/astro-ph.GA/new#item12"], [entryA]⟩ =
      parseEntries ["astro-ph.GA"] my_keywords (fun u => u) [12] [entryA])
    ∧ (processEntry ["astro-ph.GA"] my_keywords (fun u => u) [5] entryA = some [])
    ∧ processEntry ["astro-ph.GA"] my_keywords (fun u => u) [] entryA =
        processEntry ["astro-ph.GA"] my_keywords (fun u => u) []
          { entryA with anchorName := some "item99" } :=
  ⟨C4_boundary_exclusivity.1 ["astro-ph.GA"] my_keywords (fun u => u)
      ⟨[some "/list/astro-ph.GA/new#item12"], [entryA]⟩ [12] (by decide),
   C4_boundary_exclusivity.2.1 ["astro-ph.GA"] my_keywords (fun u => u) [5] entryA
      "item5" 5 rfl (by decide) (by decide) (by decide) (by decide),
   C4_boundary_exclusivity.2.2 ["astro-ph.GA"] my_keywords (fun u => u) entryA
      "item5" "item99" 5 99 rfl (by decide) (by decide) (by decide) (by decide)⟩

end ArxivSpider

namespace ArxivSpider

/-- A pattern that occurs nowhere in the list is removed from nothing. -/
theorem removeAllAux_of_not_contains (pat : List Char) :
    ∀ (fuel : Nat) (l : List Char), containsSub pat l = false → removeAllAux pat fuel l = l := by
  intro fuel
  induction fuel with
  | zero => intro l _; rfl
  | succ n ih =>
    intro l hl
    cases l with
    | nil => rfl
    | cons c rest =>
      simp only [containsSub, Bool.or_eq_false_iff] at hl
      simp [removeAllAux, hl.1, ih rest hl.2]

/-- Every list starts with itself as prefix. -/
theorem strStartsWith_append (pat l : List Char) :
    strStartsWith pat (pat ++ l) = true := by
  induction pat with
  | nil => rfl
  | cons p ps ih => simp [strStartsWith, ih]

/-- Removing a nonempty pattern from `pat ++ t` with `pat` absent from `t`
removes exactly the leading copy. -/
theorem removeAllAux_strip_leading (pat t : List Char) (hp : pat ≠ [])
    (ht : containsSub pat t = false) (fuel : Nat) :
    removeAllAux pat (fuel + 1) (pat ++ t) = t := by
  cases pat with
  | nil => exact absurd rfl hp
  | cons p ps =>
    have hsw : strStartsWith (p :: ps) (p :: (ps ++ t)) = true := by
      have := strStartsWith_append (p :: ps) t
      simpa using this
    rw [List.cons_append, removeAllAux, if_pos ⟨hsw, by simp⟩]
    rw [show p :: (ps ++ t) = (p :: ps) ++ t from rfl, List.drop_left]
    exact removeAllAux_of_not_contains _ _ _ ht

/-- C6 counterexample: the claim says an occurrence of `"Title:"` that is
not a leading label is left in place, but the code's
`title_text.replace("Title:", "")` removes every occurrence: on the input
`"Title: On the Title: problem"` the normalized title is
`"on the  problem"`, which no longer contains the inner label. -/
theorem C6_counterexample :
    cleanTitleOf (some "Title: On the Title: problem") = "on the  problem"
    ∧ pyIn "title:" (cleanTitleOf (some "Title: On the Title: problem")) = false := by
  constructor
  · rfl
  · rfl

/-- C6 (amended): the normalized title is the input with every occurrence
of the literal `"Title:"` removed (single left-to-right pass), then
trimmed and lowercased; in particular an input without any occurrence is
unchanged by the removal, and an input that is a leading `"Title:"` label
followed by occurrence-free text has exactly the label stripped. -/
theorem C6_title_normalization (s : String) (hs : s ≠ "") :
    cleanTitleOf (some s) = pyLower (pyStrip (pyRemoveAll "Title:" s))
    ∧ (∀ t : String, containsSub "Title:".data t.data = false →
        pyRemoveAll "Title:" t = t)
    ∧ ∀ t : String, containsSub "Title:".data t.data = false →
        pyRemoveAll "Title:" (String.mk ("Title:".data ++ t.data)) = t := by
  refine ⟨by simp [cleanTitleOf, hs], ?_, ?_⟩
  · intro t ht
    obtain ⟨l⟩ := t
    show String.mk (removeAllAux "Title:".data l.length l) = String.mk l
    rw [removeAllAux_of_not_contains _ _ _ ht]
  · intro t ht
    obtain ⟨l⟩ := t
    show String.mk (removeAllAux "Title:".data ("Title:".data ++ l).length ("Title:".data ++ l))
        = String.mk l
    have hlen : ("Title:".data ++ l).length = (l.length + 5) + 1 := by
      rw [List.length_append]
      have h6 : "Title:".data.length = 6 := rfl
      rw [h6]
      omega
    rw [hlen, removeAllAux_strip_leading _ _ (by decide) ht]

theorem C6_witness :
    (cleanTitleOf (some "Title: A JWST deep field") =
      pyLower (pyStrip (pyRemoveAll "Title:" "Title: A JWST deep field")))
    ∧ pyRemoveAll "Title:" "A JWST deep field" = "A JWST deep field"
    ∧ pyRemoveAll "Title:" (String.mk ("Title:".data ++ " A JWST deep field".data)) =
        " A JWST deep field" :=
  ⟨(C6_title_normalization "Title: A JWST deep field" (by decide)).1,
   (C6_title_normalization "Title: A JWST deep field" (by decide)).2.1
      "A JWST deep field" (by decide),
   (C6_title_normalization "Title: A JWST deep field" (by decide)).2.2
      " A JWST deep field" (by decide)⟩

end ArxivSpider

namespace ArxivSpider

/-- Concrete listing entry whose title (and, below, abstract) contains
"interferometer" and no other configured pattern. -/
def entryI : ListingEntry :=
  { anchorName := some "item1"
    abstractLink := some "/abs/2401.00001"
    hasDD := true
    primarySubject := some "Astrophysics of Galaxies (astro-ph.GA)"
    listSubjects := none
    titleText := some "Title: An interferometer survey" }

/-- C7: the compiled keyword list contains the concatenated patterns
`"strong lensinglens model"` and `"interferometerDust"` (the two missing
commas of the source), none of the four intended patterns
`"strong lensing"`, `"lens model"`, `"interferometer"`, `"Dust"` appears
as its own pattern, and on a record whose title and abstract contain
"interferometer" but no other configured pattern the pipeline emits
nothing: stage 1 escalates instead of emitting, and stage 2 yields no
item. -/
theorem C7_keyword_concatenation :
    ("strong lensinglens model" ∈ my_keywords ∧ "interferometerDust" ∈ my_keywords)
    ∧ ("strong lensing" ∉ my_keywords ∧ "lens model" ∉ my_keywords
       ∧ "interferometer" ∉ my_keywords ∧ "Dust" ∉ my_keywords)
    ∧ processEntry ["astro-ph.GA"] my_keywords (fun u => u) [] entryI =
        some [Event.request "/abs/2401.00001" ⟨"2401.00001", ["astro-ph.GA"]⟩
                "an interferometer survey"]
    ∧ (parse_abstract_page my_keywords ⟨"2401.00001", ["astro-ph.GA"]⟩
        "an interferometer survey"
        ⟨some "Abstract: We present an interferometer survey."⟩).1 = [] := by
  refine ⟨⟨by decide, by decide⟩, ⟨by decide, by decide, by decide, by decide⟩, ?_, ?_⟩
  · decide
  · decide

/-- Every `some` result of the entry processing is empty, a single
emission, or a single request. -/
theorem processEntry_shape (target kws : List String) (urljoin : String → String)
    (anchors : List Int) (e : ListingEntry) (evs : List Event)
    (h : processEntry target kws urljoin anchors e = some evs) :
    evs = [] ∨ (∃ i, evs = [Event.emit i]) ∨ ∃ u i t, evs = [Event.request u i t] := by
  unfold processEntry at h
  repeat' split at h
  all_goals try simp_all
  all_goals repeat' split at h
  all_goals try injection h with h
  all_goals
    first
      | (left; exact h.symm)
      | (right; left; exact ⟨_, h.symm⟩)
      | (right; right; exact ⟨_, _, _, h.symm⟩)

/-- Stage 2 emits at most one item. -/
theorem stage2_countEmits_le (kws : List String) (item_data : Item) (ts : String)
    (page : AbstractPage) :
    countEmits (parse_abstract_page kws item_data ts page).1 ≤ 1 := by
  cases hp : page.abstractText with
  | none => simp [parse_abstract_page, hp, countEmits]
  | some s =>
    by_cases hs : s = ""
    · simp [parse_abstract_page, hp, hs, countEmits]
    · by_cases hm : abstractMatchLoop kws (pyLower (pyStrip (pyRemoveAll "Abstract:" s))) = true
      · simp [parse_abstract_page, hp, hs, hm, countEmits]
      · simp [parse_abstract_page, hp, hs, hm, countEmits]

/-- C10: per listing entry the stage-1 output is a single emission or a
single request, never both, and chaining any stage-2 run onto each issued
request still yields at most one emitted item for the whole
stage-1-to-stage-2 chain. -/
theorem C10_at_most_once (target kws : List String) (urljoin : String → String)
    (anchors : List Int) (e : ListingEntry) (evs : List Event)
    (item_data : Item) (ts : String) (apage : AbstractPage)
    (h : processEntry target kws urljoin anchors e = some evs) :
    countEmits evs + countRequests evs * countEmits (parse_abstract_page kws item_data ts apage).1 ≤ 1 := by
  have h2 := stage2_countEmits_le kws item_data ts apage
  rcases processEntry_shape target kws urljoin anchors e evs h with rfl | ⟨i, rfl⟩ | ⟨u, i, t, rfl⟩
  · simp [countEmits, countRequests]
  · simp [countEmits, countRequests]
  · simp only [countEmits, countRequests] at *
    simp only [List.countP_cons, List.countP_nil]
    simp
    omega

theorem C10_witness :
    countEmits [Event.request "/abs/2401.00001" ⟨"2401.00001", ["astro-ph.GA"]⟩
        "an interferometer survey"]
      + countRequests [Event.request "/abs/2401.00001" ⟨"2401.00001", ["astro-ph.GA"]⟩
          "an interferometer survey"]
        * countEmits (parse_abstract_page my_keywords ⟨"2401.00001", ["astro-ph.GA"]⟩
            "an interferometer survey"
            ⟨some "Abstract: We present an interferometer survey."⟩).1 ≤ 1 :=
  C10_at_most_once ["astro-ph.GA"] my_keywords (fun u => u) [] entryI _
    ⟨"2401.00001", ["astro-ph.GA"]⟩ "an interferometer survey"
    ⟨some "Abstract: We present an interferometer survey."⟩ (by decide)

end ArxivSpider
